import Mathlib

/-!
Verification development for the WordPress-export parsing pipeline
(`src/parser.js`): item classification, post extraction, image collection
(attached and scraped) and the image merge, embedded shallowly as pure
Lean functions over the parsed document tree.

The xml2js document tree represents every XML element as an array-valued
mapping; here a `RawItem` carries exactly the fields `parser.js` reads,
each as a `List String` (XML multiplicity), with `Option` for the keys the
code truth-tests for absence (`category`, `tags`, `postmeta`).
JS `x.field[0]` reads are embedded as `List.headD ""` (well-formed exports
always carry the field with at least one value).
-/

namespace WpExport

/-- One `<category domain="...">text</category>` element of an item. -/
structure CategoryElem where
  domain : String
  text : String
deriving DecidableEq, Repr, Inhabited

/-- One `<postmeta>` element: `meta_key` / `meta_value` children. -/
structure PostmetaElem where
  meta_key : List String
  meta_value : List String
deriving DecidableEq, Repr, Inhabited

/-- An `<item>` of the export channel, restricted to the fields parser.js reads. -/
structure RawItem where
  post_type : List String
  status : List String
  post_id : List String
  post_name : List String
  post_parent : List String
  pubDate : List String
  link : List String
  creator : List String
  title : List String
  description : List String
  comment_status : List String
  ping_status : List String
  is_sticky : List String
  category : Option (List CategoryElem)
  tags : Option (List CategoryElem)
  postmeta : Option (List PostmetaElem)
  encoded : List String
  attachment_url : List String
deriving DecidableEq, Repr, Inhabited

/-- The parsed document: `data.rss.channel[0].item`. -/
structure ChannelData where
  item : List RawItem
deriving DecidableEq, Repr, Inhabited

/-- The configuration fields the core consumes. -/
structure Config where
  postTypes : String
  saveAttachedImages : Bool
  saveScrapedImages : Bool
deriving DecidableEq, Repr, Inhabited

/-- Internal meta fields of a post record. -/
structure PostMeta where
  id : String
  slug : String
  coverImageId : Option String
  imageUrls : List String
  type : String
deriving DecidableEq, Repr, Inhabited

/-- Front-matter fields of a post record. `date` is `none` when the pubDate is
malformed (luxon's `toISODate()` returns `null`); `coverImage` is `none` until
the merge sets it. -/
structure Frontmatter where
  title : String
  date : Option String
  slug : String
  link : String
  creator : String
  description : String
  commentStatus : String
  pingStatus : String
  isSticky : String
  categories : List String
  tags : List String
  coverImage : Option String
deriving DecidableEq, Repr, Inhabited

/-- A post record as built by `collectPosts`. -/
structure PostRecord where
  meta : PostMeta
  frontmatter : Frontmatter
  content : String
deriving DecidableEq, Repr, Inhabited

/-- An image reference id: `-1` (a JS number) for scraped images, a string
(`post_id` text) for attached ones. -/
inductive ImgId where
  | num : Int → ImgId
  | str : String → ImgId
deriving DecidableEq, Repr, Inhabited

/-- An image reference produced by the collectors. -/
structure ImageRef where
  id : ImgId
  postId : String
  url : String
deriving DecidableEq, Repr, Inhabited

/-! ### Kernel-computable string helpers

Core `String` functions iterate over byte positions and do not reduce inside
the kernel; the helpers below implement the same operations (JS semantics)
structurally over the character list, so every definition in this file
evaluates on concrete input by `decide` or `rfl`. -/

/-- Literal prefix test over character lists (`String.prototype.startsWith`). -/
def leadsWith : List Char → List Char → Bool
  | [], _ => true
  | _ :: _, [] => false
  | p :: ps, c :: cs => p == c && leadsWith ps cs

/-- Literal suffix test over character lists (`String.prototype.endsWith`). -/
def closesWith (pat s : List Char) : Bool := leadsWith pat.reverse s.reverse

/-- Character-wise lower-casing (`String.prototype.toLowerCase`). -/
def lowerChars (l : List Char) : List Char := l.map Char.toLower

/-- If `sep` is a prefix of `s`, the remainder of `s` after it. -/
def dropSep? : List Char → List Char → Option (List Char)
  | [], s => some s
  | _ :: _, [] => none
  | p :: ps, c :: cs => if p == c then dropSep? ps cs else none

/-- Fuelled splitting on a non-empty separator, leftmost non-overlapping. -/
def chSplitGo : Nat → List Char → List Char → List (List Char)
  | 0, _, s => [s]
  | _ + 1, _, [] => [[]]
  | fuel + 1, sep, c :: cs =>
    match dropSep? sep (c :: cs) with
    | some rest => [] :: chSplitGo fuel sep rest
    | none =>
      match chSplitGo fuel sep cs with
      | [] => [[c]]
      | g :: gs => (c :: g) :: gs

/-- `s.split(sep)` over character lists (non-empty separator). -/
def chSplit (sep s : List Char) : List (List Char) :=
  chSplitGo (s.length + 1) sep s

/-- JS `String.prototype.split` with a non-empty string separator. -/
def jsSplit (s sep : String) : List String :=
  (chSplit sep.toList s.toList).map String.mk

/-- Join character lists with a separator (`Array.prototype.join`). -/
def chJoin (sep : List Char) : List (List Char) → List Char
  | [] => []
  | [x] => x
  | x :: y :: rest => x ++ sep ++ chJoin sep (y :: rest)

/-- Accumulating decimal parse; `none` on a non-digit. -/
def digitsToNatAux : List Char → Nat → Option Nat
  | [], acc => some acc
  | c :: cs, acc =>
    if c.isDigit then digitsToNatAux cs (acc * 10 + (c.toNat - 48)) else none

/-- Parse a non-empty all-digit character list as a natural number. -/
def chToNat? : List Char → Option Nat
  | [] => none
  | l => digitsToNatAux l 0

/-- Fuelled decimal rendering of a natural number. -/
def natToCharsGo : Nat → Nat → List Char → List Char
  | 0, _, acc => acc
  | fuel + 1, n, acc =>
    if n < 10 then Char.ofNat (48 + n) :: acc
    else natToCharsGo fuel (n / 10) (Char.ofNat (48 + n % 10) :: acc)

/-- Decimal digits of a natural number. -/
def natToChars (n : Nat) : List Char := natToCharsGo (n + 1) n []

/-- Decimal rendering of an integer. -/
def intToChars (n : Int) : List Char :=
  if n < 0 then '-' :: natToChars (-n).toNat else natToChars n.toNat

/-- JS `x.field[0]` on an array-valued tree node. -/
def fstVal (l : List String) : String := l.headD ""

/-- `getItemsOfTypes(data, ...types)`. -/
def getItemsOfTypes (data : ChannelData) (types : List String) : List RawItem :=
  data.item.filter (fun item => types.contains (fstVal item.post_type))

def getPostId (post : RawItem) : String := fstVal post.post_id

def getPostSlug (post : RawItem) : String := fstVal post.post_name

/-- `getPostCoverImageId(post)`: the `meta_value` of the postmeta entry whose
`meta_key` is `_thumbnail_id`; `undefined` when the postmeta list or the entry
is absent. -/
def getPostCoverImageId (post : RawItem) : Option String :=
  match post.postmeta with
  | none => none
  | some pm =>
    match pm.find? (fun postmeta => fstVal postmeta.meta_key == "_thumbnail_id") with
    | some postmeta => some (fstVal postmeta.meta_value)
    | none => none

def getPostType (post : RawItem) : String := fstVal post.post_type

def getPostTitle (post : RawItem) : String := fstVal post.title

def getLink (post : RawItem) : String := fstVal post.link

def getCreator (post : RawItem) : String := fstVal post.creator

def getDescription (post : RawItem) : String := fstVal post.description

def getCommentStatus (post : RawItem) : String := fstVal post.comment_status

def getPingStatus (post : RawItem) : String := fstVal post.ping_status

def isSticky (post : RawItem) : String := fstVal post.is_sticky

/-! ### Calendar arithmetic and the date model

`getPostDate` calls `luxon.DateTime.fromRFC2822(pubDate, {zone: 'utc'}).toISODate()`.
The luxon library is not part of `src/`, so its behaviour is modelled from the
spec below. The civil-calendar conversions use the standard era-based
day-number algorithms. -/

/-- Proleptic-Gregorian leap year. -/
def isLeapYear (y : Int) : Bool :=
  (Int.emod y 4 == 0 && Int.emod y 100 != 0) || Int.emod y 400 == 0

/-- Days in a month of a given year. -/
def daysInMonth (y : Int) (m : Nat) : Nat :=
  if m == 2 then (if isLeapYear y then 29 else 28)
  else if m == 4 || m == 6 || m == 9 || m == 11 then 30
  else 31

/-- Day number of a civil date, with day 0 = 1970-01-01. -/
def daysFromCivil (y : Int) (m d : Int) : Int :=
  let yy := if m ≤ 2 then y - 1 else y
  let era := Int.fdiv yy 400
  let yoe := yy - era * 400
  let mp := Int.fmod (m + 9) 12
  let doy := Int.fdiv (153 * mp + 2) 5 + d - 1
  let doe := yoe * 365 + Int.fdiv yoe 4 - Int.fdiv yoe 100 + doy
  era * 146097 + doe - 719468

/-- Civil date (year, month, day) of a day number, inverse of `daysFromCivil`. -/
def civilFromDays (z : Int) : Int × Int × Int :=
  let z' := z + 719468
  let era := Int.fdiv z' 146097
  let doe := z' - era * 146097
  let yoe :=
    Int.fdiv (doe - Int.fdiv doe 1460 + Int.fdiv doe 36524 - Int.fdiv doe 146096) 365
  let y := yoe + era * 400
  let doy := doe - (365 * yoe + Int.fdiv yoe 4 - Int.fdiv yoe 100)
  let mp := Int.fdiv (5 * doy + 2) 153
  let d := doy - Int.fdiv (153 * mp + 2) 5 + 1
  let m := mp + (if mp < 10 then 3 else -9)
  (y + (if m ≤ 2 then 1 else 0), m, d)

/-- Three-letter RFC-2822 month name to month number. -/
def monthNum? (s : List Char) : Option Nat :=
  let l := lowerChars s
  if l == "jan".toList then some 1
  else if l == "feb".toList then some 2
  else if l == "mar".toList then some 3
  else if l == "apr".toList then some 4
  else if l == "may".toList then some 5
  else if l == "jun".toList then some 6
  else if l == "jul".toList then some 7
  else if l == "aug".toList then some 8
  else if l == "sep".toList then some 9
  else if l == "oct".toList then some 10
  else if l == "nov".toList then some 11
  else if l == "dec".toList then some 12
  else none

/-- RFC-2822 zone token to its UTC offset in minutes: numeric `±HHMM` forms,
`UT`/`GMT`/`Z`, and the obsolete North-American zone names. -/
def zoneOffsetMinutes? (s : List Char) : Option Int :=
  if s == "UT".toList || s == "GMT".toList || s == "UTC".toList
      || s == "Z".toList || s == "z".toList then some 0
  else if s == "EST".toList then some (-300)
  else if s == "EDT".toList then some (-240)
  else if s == "CST".toList then some (-360)
  else if s == "CDT".toList then some (-300)
  else if s == "MST".toList then some (-420)
  else if s == "MDT".toList then some (-360)
  else if s == "PST".toList then some (-480)
  else if s == "PDT".toList then some (-420)
  else
    match s with
    | [sign, h1, h2, m1, m2] =>
      if (sign == '+' || sign == '-')
          && h1.isDigit && h2.isDigit && m1.isDigit && m2.isDigit then
        let hv : Int := ((h1.toNat - 48) * 10 + (h2.toNat - 48) : Nat)
        let mv : Int := ((m1.toNat - 48) * 10 + (m2.toNat - 48) : Nat)
        let v := hv * 60 + mv
        some (if sign == '+' then v else -v)
      else none
    | _ => none

/-- Two-digit zero-padded rendering of a small value. -/
def pad2 (n : Int) : List Char :=
  if n < 10 then '0' :: intToChars n else intToChars n

/-- Four-digit zero-padded year rendering (years 0–9999). -/
def pad4 (n : Int) : List Char :=
  if n < 10 then '0' :: '0' :: '0' :: intToChars n
  else if n < 100 then '0' :: '0' :: intToChars n
  else if n < 1000 then '0' :: intToChars n
  else intToChars n

/-- Two-digit RFC-2822 years are 1900s/2000s, three-digit ones 1900-based. -/
def adjustRfcYear (digits : Nat) (y : Nat) : Int :=
  if digits == 2 then (if y < 50 then 2000 + y else 1900 + y)
  else if digits == 3 then 1900 + y
  else y

/-- Parse the `HH:MM` or `HH:MM:SS` time of day, in minutes since midnight. -/
def timeOfDayMinutes? (s : List Char) : Option Int :=
  match (chSplit [':'] s).map chToNat? with
  | [some h, some m] =>
    if h ≤ 23 && m ≤ 59 then some ((h * 60 + m : Nat) : Int) else none
  | [some h, some m, some sec] =>
    if h ≤ 23 && m ≤ 59 && sec ≤ 59 then some ((h * 60 + m : Nat) : Int) else none
  | _ => none

/-- Modelled from the spec: `luxon.DateTime.fromRFC2822(s, { zone: 'utc' }).toISODate()`
(the luxon library is a dependency, not under `src/`) — the string parsed as an
RFC-2822 timestamp (`[Www, ]DD Mon YYYY HH:MM[:SS] zone`), its instant
interpreted in UTC, normalized to an ISO calendar date `YYYY-MM-DD`; `none` on
a malformed date (luxon returns `null`). The zone offset shifts the instant, so
it can move the calendar date across midnight. -/
def fromRFC2822toISODate (s : String) : Option String :=
  let toks := (chSplit [' '] s.toList).filter (fun t => ¬ t.isEmpty)
  let toks :=
    match toks with
    | t :: rest => if closesWith [','] t then rest else toks
    | [] => []
  let fields? :=
    match toks with
    | [dayS, monS, yearS, timeS] => some (dayS, monS, yearS, timeS, "+0000".toList)
    | [dayS, monS, yearS, timeS, zoneS] => some (dayS, monS, yearS, timeS, zoneS)
    | _ => none
  match fields? with
  | none => none
  | some (dayS, monS, yearS, timeS, zoneS) =>
    match chToNat? dayS, monthNum? monS, chToNat? yearS,
        timeOfDayMinutes? timeS, zoneOffsetMinutes? zoneS with
    | some day, some mon, some yr, some tod, some off =>
      let year := adjustRfcYear yearS.length yr
      if 1 ≤ day ∧ day ≤ daysInMonth year mon then
        let localMinutes := daysFromCivil year mon day * 1440 + tod
        let utcMinutes := localMinutes - off
        let (y, m, d) := civilFromDays (Int.fdiv utcMinutes 1440)
        some (String.mk (pad4 y ++ ['-'] ++ pad2 m ++ ['-'] ++ pad2 d))
      else none
    | _, _, _, _, _ => none

/-- `getPostDate(post)`: pubDate through the modelled luxon pipeline. -/
def getPostDate (post : RawItem) : Option String :=
  fromRFC2822toISODate (fstVal post.pubDate)

/-- `getCategories(post)`: text of the category elements whose `domain`
attribute is `category`; `[]` when the item has no `category` key. -/
def getCategories (post : RawItem) : List String :=
  match post.category with
  | none => []
  | some cats => (cats.filter (fun c => c.domain == "category")).map (fun c => c.text)

/-- `getTags(post)`: as in the source, the guard tests `post.tags` (a key WXR
items never carry) and the body then reads `post.category`; in the `some`
branch a JS run with `category` absent would throw, embedded here as `[]`. -/
def getTags (post : RawItem) : List String :=
  match post.tags with
  | none => []
  | some _ =>
    match post.category with
    | none => []
    | some cats => (cats.filter (fun c => c.domain == "post_tag")).map (fun c => c.text)

/-- The record built for one item in `collectPosts`. The body conversion
`translator.getPostContent(post, turndownService, config)` lives outside this
module; it enters as the collaborator function `getContent` (the turndown
service and config are fixed for the whole run). -/
def buildPost (getContent : RawItem → String) (post : RawItem) : PostRecord :=
  { meta :=
      { id := getPostId post
        slug := getPostSlug post
        coverImageId := getPostCoverImageId post
        imageUrls := []
        type := getPostType post }
    frontmatter :=
      { title := getPostTitle post
        date := getPostDate post
        slug := getPostSlug post
        link := getLink post
        creator := getCreator post
        description := getDescription post
        commentStatus := getCommentStatus post
        pingStatus := getPingStatus post
        isSticky := isSticky post
        categories := getCategories post
        tags := getTags post
        coverImage := none }
    content := getContent post }

/-- `collectPosts(data, config)`: items of the configured types, statuses
`trash` and `draft` excluded, mapped to post records. -/
def collectPosts (data : ChannelData) (config : Config)
    (getContent : RawItem → String) : List PostRecord :=
  let types := jsSplit config.postTypes ","
  ((getItemsOfTypes data types).filter
      (fun post => fstVal post.status != "trash" && fstVal post.status != "draft")).map
    (buildPost getContent)

/-! ### Image collection -/

/-- Case-insensitive character comparison (both image regexes carry the `i` flag). -/
def charCiEq (a b : Char) : Bool := a.toLower == b.toLower

/-- Case-insensitive literal prefix test over character lists. -/
def startsWithCi : List Char → List Char → Bool
  | [], _ => true
  | _ :: _, [] => false
  | p :: ps, c :: cs => charCiEq p c && startsWithCi ps cs

/-- The test `/\.(gif|jpe?g|png)$/i.test(url)`: anchored at the end of the
string, case-insensitive. -/
def hasImageExtension (url : String) : Bool :=
  let l := lowerChars url.toList
  closesWith (".gif".toList) l || closesWith (".jpg".toList) l
    || closesWith (".jpeg".toList) l || closesWith (".png".toList) l

/-- `collectAttachedImages(data)`: attachment items whose url has an image
extension, projected to image references. -/
def collectAttachedImages (data : ChannelData) : List ImageRef :=
  ((getItemsOfTypes data ["attachment"]).filter
      (fun attachment => hasImageExtension (fstVal attachment.attachment_url))).map
    (fun attachment =>
      { id := ImgId.str (fstVal attachment.post_id)
        postId := fstVal attachment.post_parent
        url := fstVal attachment.attachment_url })

/-- JS `.` without the `s` flag: any character except a line terminator. -/
def isDotChar (c : Char) : Bool :=
  c != '\n' && c != '\r' && c.val != 0x2028 && c.val != 0x2029

/-- The extension alternation `(?:gif|jpe?g|png)` of the scrape regex
(case-insensitive); the branches are mutually exclusive at any one position,
the consumed length is returned. -/
def extLenAt (s : List Char) : Option Nat :=
  if startsWithCi ("gif".toList) s then some 3
  else if startsWithCi ("jpeg".toList) s then some 4
  else if startsWithCi ("jpg".toList) s then some 3
  else if startsWithCi ("png".toList) s then some 3
  else none

/-- One attempt of `/<img[^>]*src="(.+?\.(?:gif|jpe?g|png))"[^>]*>/i` anchored
at the start of `cs`, in the JS backtracking order: the first `[^>]*` is greedy
(longest prefix first, backtracking down), the `.+?` of the capture group is
lazy (shortest first, each candidate validated through the rest of the
pattern); after the closing quote, `[^>]*>` deterministically runs to the next
`>`. Returns the capture-group text and the total matched length. -/
def tryImgMatch (cs : List Char) : Option (List Char × Nat) :=
  if startsWithCi ("<img".toList) cs then
    let rest := cs.drop 4
    let limit := (rest.takeWhile (fun c => c != '>')).length
    ((List.range (limit + 1)).reverse).findSome? (fun n =>
      let afterB := rest.drop n
      if startsWithCi ("src=\"".toList) afterB then
        let afterC := afterB.drop 5
        (List.range afterC.length).findSome? (fun pl =>
          let p := pl + 1
          if (afterC.take p).all isDotChar && (afterC.drop p).head? == some '.' then
            match extLenAt (afterC.drop (p + 1)) with
            | none => none
            | some el =>
              let glen := p + 1 + el
              let afterD := afterC.drop glen
              if afterD.head? == some '"' then
                let afterE := afterD.drop 1
                let fLen := (afterE.takeWhile (fun c => c != '>')).length
                if (afterE.drop fLen).head? == some '>' then
                  some (afterC.take glen, 4 + n + 5 + glen + 1 + fLen + 1)
                else none
              else none
          else none)
      else none)
  else none

/-- `matchAll` driver: scan left to right, at each position try a match; on
success record the capture group and resume after the matched text (a match
here always has positive length, so the scan advances). -/
def imgMatchGo : Nat → List Char → List (List Char)
  | 0, _ => []
  | _, [] => []
  | fuel + 1, cs =>
    match tryImgMatch cs with
    | some (grp, len) => grp :: imgMatchGo fuel (cs.drop len)
    | none => imgMatchGo fuel (cs.drop 1)

/-- All capture groups of `postContent.matchAll(/<img…/gi)`, in match order. -/
def imgMatchAll (s : String) : List String :=
  (imgMatchGo (s.toList.length + 1) s.toList).map (fun l => String.mk l)

/-- Does the string begin with a URI scheme (`[A-Za-z][A-Za-z0-9+.-]*:`)? -/
def hasScheme (s : String) : Bool :=
  match s.toList with
  | [] => false
  | c :: cs =>
    c.isAlpha &&
      (let tail := cs.dropWhile (fun d => d.isAlphanum || d == '+' || d == '.' || d == '-')
       tail.head? == some ':')

/-- Modelled from the spec: the platform URL resolver `new URL(rel, base).href`
— "resolve each match to an absolute URL using the item's canonical link as
the base" — for hierarchical (http/https) bases, per the standard
relative-resolution rules (RFC 3986 §5.3): an absolute reference stands as is;
`//…` takes the base's scheme; `/…` replaces the base's path; any other
reference replaces the part of the base path after its last `/`. Dot-segment
and percent normalisation are outside the scope exercised here. -/
def resolveUrl (rel base : String) : String :=
  if hasScheme rel then rel
  else
    match chSplit ("://".toList) base.toList with
    | scheme :: restHead :: restMore =>
      let hostPath := chJoin ("://".toList) (restHead :: restMore)
      let hostChars := hostPath.takeWhile (fun c => c != '/' && c != '?' && c != '#')
      let pathFull := hostPath.drop hostChars.length
      let origin := scheme ++ "://".toList ++ hostChars
      if leadsWith ("//".toList) rel.toList then String.mk (scheme ++ [':'] ++ rel.toList)
      else if leadsWith ['/'] rel.toList then String.mk (origin ++ rel.toList)
      else
        let path := pathFull.takeWhile (fun c => c != '?' && c != '#')
        if path.isEmpty then String.mk (origin ++ ['/'] ++ rel.toList)
        else
          String.mk (origin ++ chJoin ['/'] (chSplit ['/'] path).dropLast
            ++ ['/'] ++ rel.toList)
    | _ => base ++ rel

/-- `collectScrapedImages(data, config)`: for each item of a configured type,
scrape the body for image `src` captures and resolve each against the item's
link; the image id is the numeric sentinel `-1`. -/
def collectScrapedImages (data : ChannelData) (config : Config) : List ImageRef :=
  let types := jsSplit config.postTypes ","
  (getItemsOfTypes data types).flatMap (fun post =>
    (imgMatchAll (fstVal post.encoded)).map (fun m =>
      { id := ImgId.num (-1)
        postId := fstVal post.post_id
        url := resolveUrl m (fstVal post.link) }))

/-! ### Image merge -/

/-- Hexadecimal digit value. -/
def hexVal? (c : Char) : Option Nat :=
  if '0' ≤ c ∧ c ≤ '9' then some (c.toNat - 48)
  else if 'a' ≤ c ∧ c ≤ 'f' then some (c.toNat - 87)
  else if 'A' ≤ c ∧ c ≤ 'F' then some (c.toNat - 55)
  else none

/-- Percent-decoding of single-byte escapes. -/
def percentDecodeGo : List Char → List Char
  | [] => []
  | '%' :: a :: b :: rest =>
    match hexVal? a, hexVal? b with
    | some ha, some hb => Char.ofNat (ha * 16 + hb) :: percentDecodeGo rest
    | _, _ => '%' :: percentDecodeGo (a :: b :: rest)
  | c :: rest => c :: percentDecodeGo rest

/-- Modelled from the spec: `shared.getFilenameFromUrl` (the `shared` module is
not under `src/`) — "derive a filename from the URL (last path segment,
decoded)"; decoding modelled for single-byte percent escapes. -/
def getFilenameFromUrl (url : String) : String :=
  String.mk (percentDecodeGo ((chSplit ['/'] url.toList).getLastD url.toList))

/-- Last index in the id list holding `pid`. The JS lookup object maps each
`meta.id` to its record with later writes overwriting earlier ones, so a
lookup resolves to the last record carrying the id. -/
def lastIdxOf? (ids : List String) (pid : String) : Option Nat :=
  match ids with
  | [] => none
  | x :: xs =>
    match lastIdxOf? xs pid with
    | some i => some (i + 1)
    | none => if x == pid then some 0 else none

/-- `image.id === post.meta.coverImageId`: JS strict equality between the image
id (the number `-1` for scraped images, a `post_id` string for attached ones)
and the cover id (a string when declared, `undefined` otherwise); operands of
distinct types are never strictly equal. -/
def idEqCover : ImgId → Option String → Bool
  | ImgId.str s, some t => s == t
  | _, _ => false

/-- The mutation of one post for one image: set `frontmatter.coverImage` to the
filename of the url when the image id strict-equals the post's cover id, and
append the url to `meta.imageUrls` when it is not already present. -/
def applyImage (image : ImageRef) (post : PostRecord) : PostRecord :=
  let fm :=
    if idEqCover image.id post.meta.coverImageId then
      { post.frontmatter with coverImage := some (getFilenameFromUrl image.url) }
    else post.frontmatter
  let urls :=
    if post.meta.imageUrls.contains image.url then post.meta.imageUrls
    else post.meta.imageUrls ++ [image.url]
  { post with frontmatter := fm, meta := { post.meta with imageUrls := urls } }

/-- Replace the element at one index by the image of `f`. -/
def modifyIdx (f : PostRecord → PostRecord) : Nat → List PostRecord → List PostRecord
  | _, [] => []
  | 0, p :: ps => f p :: ps
  | n + 1, p :: ps => p :: modifyIdx f n ps

/-- One step of `images.forEach`: resolve the owning post by `image.postId`
through the lookup (the last record with that id) and mutate it in place; an
unmatched postId leaves every post untouched. -/
def mergeStep (posts : List PostRecord) (image : ImageRef) : List PostRecord :=
  match lastIdxOf? (posts.map (fun p => p.meta.id)) image.postId with
  | none => posts
  | some i => modifyIdx (applyImage image) i posts

/-- `mergeImagesIntoPosts(images, posts)` as a pure fold over the image list. -/
def mergeImagesIntoPosts (images : List ImageRef) (posts : List PostRecord) :
    List PostRecord :=
  images.foldl mergeStep posts

/-- The post-load pipeline of `parseFilePromise`: collect posts, collect the
enabled image sources (attached first, then scraped), merge into the posts. -/
def parsePipeline (data : ChannelData) (config : Config)
    (getContent : RawItem → String) : List PostRecord :=
  let posts := collectPosts data config getContent
  let images :=
    (if config.saveAttachedImages then collectAttachedImages data else []) ++
      (if config.saveScrapedImages then collectScrapedImages data config else [])
  mergeImagesIntoPosts images posts

/-! ### Specification-side helpers and concrete scenario inputs -/

/-- The accumulator step the merge performs on `meta.imageUrls`:
append the url unless already present (`includes`/`push`). -/
def insUnique (acc : List String) (u : String) : List String :=
  if acc.contains u then acc else acc ++ [u]

/-- First-occurrence deduplication: keeps the first occurrence of every
string, in the order the first occurrences appear. -/
def firstOccDedup : List String → List String
  | [] => []
  | u :: us => u :: firstOccDedup (us.filter (fun v => v != u))
termination_by l => l.length
decreasing_by
  simp only [List.length_cons]
  exact Nat.lt_succ_of_le (List.length_filter_le _ _)

/-- A minimal item carrying one `post_tag` category entry and — as for every
item of a WXR export — no `tags` key. -/
def tagOnlyItem : RawItem :=
  { post_type := ["post"], status := ["publish"], post_id := ["1"],
    post_name := ["a"], post_parent := [""],
    pubDate := ["Wed, 01 Jan 2020 00:00:00 +0000"], link := ["https://e.com/a/"],
    creator := ["me"], title := ["t"], description := [""],
    comment_status := ["open"], ping_status := ["open"], is_sticky := ["0"],
    category := some [{ domain := "post_tag", text := "lean" }],
    tags := none, postmeta := none, encoded := ["<p>x</p>"], attachment_url := [] }

/-- The §8 scrape scenario item: body `<img src="photo.png">`, canonical link
`https://example.com/post/`. -/
def scrapeItem (pid : String) : RawItem :=
  { post_type := ["post"], status := ["publish"], post_id := [pid],
    post_name := ["p"], post_parent := [""],
    pubDate := ["Wed, 01 Jan 2020 00:00:00 +0000"],
    link := ["https://example.com/post/"], creator := ["me"], title := ["t"],
    description := [""], comment_status := ["open"], ping_status := ["open"],
    is_sticky := ["0"], category := none, tags := none, postmeta := none,
    encoded := ["<img src=\"photo.png\">"], attachment_url := [] }

/-- The §8 cover-image scenario post: `postmeta` declares `_thumbnail_id` 42. -/
def coverPost : RawItem :=
  { post_type := ["post"], status := ["publish"], post_id := ["10"],
    post_name := ["my-post"], post_parent := [""],
    pubDate := ["Wed, 01 Jan 2020 00:00:00 +0000"],
    link := ["https://example.com/my-post/"], creator := ["me"],
    title := ["My Post"], description := [""], comment_status := ["open"],
    ping_status := ["open"], is_sticky := ["0"], category := none, tags := none,
    postmeta := some [{ meta_key := ["_thumbnail_id"], meta_value := ["42"] }],
    encoded := ["<p>hello</p>"], attachment_url := [] }

/-- The §8 cover-image scenario attachment: `post_id` 42, parent post 10,
a `.jpg` attachment url. -/
def coverAttachment : RawItem :=
  { post_type := ["attachment"], status := ["inherit"], post_id := ["42"],
    post_name := ["photo"], post_parent := ["10"], pubDate := [""],
    link := ["https://example.com/photo/"], creator := ["me"], title := ["photo"],
    description := [""], comment_status := ["closed"], ping_status := ["closed"],
    is_sticky := ["0"], category := none, tags := none, postmeta := none,
    encoded := [""], attachment_url := ["https://example.com/uploads/photo.jpg"] }

/-- A concrete post record for witnesses: id 10, cover id 42, fresh urls. -/
def samplePost : PostRecord :=
  { meta :=
      { id := "10"
        slug := "s"
        coverImageId := some "42"
        imageUrls := []
        type := "post" }
    frontmatter :=
      { title := "t"
        date := some "2020-01-01"
        slug := "s"
        link := "https://e.com/s/"
        creator := "me"
        description := "d"
        commentStatus := "open"
        pingStatus := "open"
        isSticky := "0"
        categories := ["c"]
        tags := []
        coverImage := none }
    content := "body" }

/-- Concrete merge input: an attached cover image, a scraped image and a
scraped duplicate of the first url, all owned by post 10. -/
def sampleImages : List ImageRef :=
  [ { id := ImgId.str "42", postId := "10", url := "https://e.com/a.jpg" },
    { id := ImgId.num (-1), postId := "10", url := "https://e.com/b.png" },
    { id := ImgId.num (-1), postId := "10", url := "https://e.com/a.jpg" } ]

/-! ### Lemmas about the merge -/

theorem modifyIdx_getElem? (f : PostRecord → PostRecord) :
    ∀ (n : Nat) (l : List PostRecord) (i : Nat),
      (modifyIdx f n l)[i]? = if i = n then (l[i]?).map f else l[i]?
  | n, [], i => by cases i <;> cases n <;> simp [modifyIdx]
  | 0, p :: ps, 0 => by simp [modifyIdx]
  | 0, p :: ps, i + 1 => by simp [modifyIdx]
  | n + 1, p :: ps, 0 => by simp [modifyIdx]
  | n + 1, p :: ps, i + 1 => by
    simp only [modifyIdx, List.getElem?_cons_succ]
    rw [modifyIdx_getElem? f n ps i]
    simp [Nat.succ_inj]

theorem modifyIdx_map_id (f : PostRecord → PostRecord)
    (hf : ∀ p, (f p).meta.id = p.meta.id) :
    ∀ (n : Nat) (l : List PostRecord),
      (modifyIdx f n l).map (fun p => p.meta.id) = l.map (fun p => p.meta.id)
  | n, [] => by cases n <;> rfl
  | 0, p :: ps => by simp [modifyIdx, hf]
  | n + 1, p :: ps => by simp [modifyIdx, modifyIdx_map_id f hf n ps]

theorem mergeStep_map_id (posts : List PostRecord) (im : ImageRef) :
    (mergeStep posts im).map (fun p => p.meta.id) = posts.map (fun p => p.meta.id) := by
  unfold mergeStep
  cases h : lastIdxOf? (posts.map fun p => p.meta.id) im.postId with
  | none => rfl
  | some i => exact modifyIdx_map_id (applyImage im) (fun p => rfl) i posts

theorem merge_map_id :
    ∀ (images : List ImageRef) (posts : List PostRecord),
      (mergeImagesIntoPosts images posts).map (fun p => p.meta.id) =
        posts.map (fun p => p.meta.id)
  | [], _ => rfl
  | im :: ims, posts => by
    have h : mergeImagesIntoPosts (im :: ims) posts
        = mergeImagesIntoPosts ims (mergeStep posts im) := rfl
    rw [h, merge_map_id ims (mergeStep posts im), mergeStep_map_id]

theorem mergeStep_getElem? (posts : List PostRecord) (im : ImageRef) (i : Nat) :
    (mergeStep posts im)[i]? =
      if lastIdxOf? (posts.map fun p => p.meta.id) im.postId = some i
      then (posts[i]?).map (applyImage im) else posts[i]? := by
  unfold mergeStep
  cases h : lastIdxOf? (posts.map fun p => p.meta.id) im.postId with
  | none => simp
  | some j =>
    rw [modifyIdx_getElem?]
    by_cases hij : i = j
    · subst hij; simp
    · simp [Option.some.injEq, hij, Ne.symm hij]

theorem merge_getElem? :
    ∀ (images : List ImageRef) (posts : List PostRecord) (i : Nat),
      (mergeImagesIntoPosts images posts)[i]? =
        (posts[i]?).map (fun p =>
          (images.filter (fun im =>
              lastIdxOf? (posts.map fun q => q.meta.id) im.postId == some i)).foldl
            (fun q im => applyImage im q) p)
  | [], posts, i => by
    simp only [mergeImagesIntoPosts, List.foldl_nil, List.filter_nil]
    cases posts[i]? <;> rfl
  | im :: ims, posts, i => by
    have hstep : mergeImagesIntoPosts (im :: ims) posts
        = mergeImagesIntoPosts ims (mergeStep posts im) := rfl
    rw [hstep, merge_getElem? ims (mergeStep posts im) i, mergeStep_map_id,
      mergeStep_getElem?]
    by_cases hm : lastIdxOf? (posts.map fun q => q.meta.id) im.postId = some i
    · have hb : (lastIdxOf? (posts.map fun q => q.meta.id) im.postId == some i) = true := by
        simp [hm]
      rw [if_pos hm]
      simp only [List.filter_cons, hb, if_true, Option.map_map]
      cases posts[i]? <;> rfl
    · have hb : (lastIdxOf? (posts.map fun q => q.meta.id) im.postId == some i) = false := by
        simp [hm]
      rw [if_neg hm]
      simp only [List.filter_cons, hb, if_false, Bool.false_eq_true]

theorem applyImage_imageUrls (im : ImageRef) (p : PostRecord) :
    (applyImage im p).meta.imageUrls = insUnique p.meta.imageUrls im.url := rfl

theorem foldl_applyImage_imageUrls :
    ∀ (ims : List ImageRef) (p : PostRecord),
      (ims.foldl (fun q im => applyImage im q) p).meta.imageUrls =
        (ims.map (fun im => im.url)).foldl insUnique p.meta.imageUrls
  | [], _ => rfl
  | im :: ims, p => by
    simp only [List.foldl_cons, List.map_cons]
    rw [foldl_applyImage_imageUrls ims (applyImage im p), applyImage_imageUrls]

theorem foldl_applyImage_pres {α : Type} (f : PostRecord → α)
    (hf : ∀ im q, f (applyImage im q) = f q) :
    ∀ (ims : List ImageRef) (p : PostRecord),
      f (ims.foldl (fun q im => applyImage im q) p) = f p
  | [], _ => rfl
  | im :: ims, p => by
    rw [List.foldl_cons, foldl_applyImage_pres f hf ims (applyImage im p), hf]

theorem foldl_applyImage_coverImage :
    ∀ (ims : List ImageRef) (p : PostRecord),
      (ims.foldl (fun q im => applyImage im q) p).frontmatter.coverImage =
        ims.foldl (fun acc im =>
            if idEqCover im.id p.meta.coverImageId
            then some (getFilenameFromUrl im.url) else acc)
          p.frontmatter.coverImage
  | [], _ => rfl
  | im :: ims, p => by
    rw [List.foldl_cons, List.foldl_cons,
      foldl_applyImage_coverImage ims (applyImage im p)]
    have h1 : (applyImage im p).meta.coverImageId = p.meta.coverImageId := rfl
    have h2 : (applyImage im p).frontmatter.coverImage =
        if idEqCover im.id p.meta.coverImageId then some (getFilenameFromUrl im.url)
        else p.frontmatter.coverImage := by
      by_cases hc : idEqCover im.id p.meta.coverImageId <;> simp [applyImage, hc]
    rw [h1, h2]

theorem foldl_ifMatch_getLast? (f : ImageRef → String) (c : ImageRef → Bool) :
    ∀ (ims : List ImageRef) (a : Option String),
      ims.foldl (fun acc im => if c im then some (f im) else acc) a =
        match (ims.filter c).getLast? with
        | some im => some (f im)
        | none => a
  | [], a => rfl
  | im :: ims, a => by
    rw [List.foldl_cons, foldl_ifMatch_getLast? f c ims]
    by_cases h : c im
    · simp only [List.filter_cons, h, if_true]
      cases hl : ims.filter c with
      | nil => simp
      | cons x xs =>
        rw [List.getLast?_cons_cons]
        cases hy : (x :: xs).getLast? with
        | some y => rfl
        | none => simp at hy
    · simp only [List.filter_cons, h, if_false, Bool.false_eq_true]

theorem lastIdxOf?_eq_none {pid : String} :
    ∀ {ids : List String}, (∀ x ∈ ids, x ≠ pid) → lastIdxOf? ids pid = none
  | [], _ => rfl
  | x :: xs, h => by
    unfold lastIdxOf?
    rw [lastIdxOf?_eq_none (fun y hy => h y (List.mem_cons_of_mem x hy))]
    simp [h x (List.mem_cons_self x xs)]

theorem contains_cons (x : String) (xs : List String) (a : String) :
    (x :: xs).contains a = (a == x || xs.contains a) := by
  show List.elem a (x :: xs) = _
  rw [List.elem_cons]
  cases h : a == x <;> simp [h, List.contains]

theorem contains_append_singleton (acc : List String) (u a : String) :
    (acc ++ [u]).contains a = (acc.contains a || a == u) := by
  induction acc with
  | nil =>
    rw [List.nil_append, contains_cons]
    cases h : a == u <;> simp [List.contains, h]
  | cons x xs ih =>
    rw [List.cons_append, contains_cons, ih, contains_cons, Bool.or_assoc]

theorem foldl_insUnique_eq :
    ∀ (us acc : List String),
      us.foldl insUnique acc = acc ++ firstOccDedup (us.filter (fun u => !acc.contains u))
  | [], acc => by simp [firstOccDedup]
  | u :: us, acc => by
    rw [List.foldl_cons, foldl_insUnique_eq us (insUnique acc u)]
    by_cases h : acc.contains u = true
    · have hins : insUnique acc u = acc := by unfold insUnique; rw [if_pos h]
      have hcond : (!acc.contains u) = false := by rw [h]; rfl
      rw [hins, List.filter_cons, hcond]
      simp only [Bool.false_eq_true, if_false]
    · have hcf : acc.contains u = false := by
        cases hx : acc.contains u
        · rfl
        · exact absurd hx h
      have hins : insUnique acc u = acc ++ [u] := by unfold insUnique; rw [if_neg h]
      have hcond : (!acc.contains u) = true := by rw [hcf]; rfl
      rw [hins, List.filter_cons, hcond]
      simp only [if_true]
      rw [firstOccDedup, List.append_assoc, List.singleton_append]
      have hfeq : (us.filter (fun v => !(acc ++ [u]).contains v))
          = ((us.filter (fun v => !acc.contains v)).filter (fun v => v != u)) := by
        rw [List.filter_filter]
        apply List.filter_congr
        intro a _
        rw [contains_append_singleton]
        cases h1 : acc.contains a <;> cases h2 : a == u <;> simp [h1, h2, bne]
      rw [hfeq]

theorem mem_firstOccDedup (v : String) :
    ∀ (us : List String), v ∈ firstOccDedup us → v ∈ us := by
  intro us
  induction us using firstOccDedup.induct with
  | case1 => intro h; rw [firstOccDedup] at h; exact h
  | case2 u us ih =>
    intro h
    rw [firstOccDedup] at h
    rcases List.mem_cons.mp h with h | h
    · exact h ▸ List.mem_cons_self u us
    · exact List.mem_cons_of_mem u (List.mem_of_mem_filter (ih h))

theorem firstOccDedup_nodup (us : List String) : (firstOccDedup us).Nodup := by
  induction us using firstOccDedup.induct with
  | case1 => simp [firstOccDedup]
  | case2 u us ih =>
    rw [firstOccDedup]
    refine List.nodup_cons.mpr ⟨fun hmem => ?_, ih⟩
    have hf := mem_firstOccDedup u _ hmem
    rw [List.mem_filter] at hf
    simp at hf

/-! ### The claims -/

/-- C1: for every parsed export document and configuration, post collection
produces exactly one record per input item whose `post_type` is in the
configured `postTypes` set and whose status is neither `trash` nor `draft`,
in the order the items appear in the document: `collectPosts` is the map of
`buildPost` over exactly that filtered item subsequence. -/
theorem C1_collectPosts_one_record_per_item (data : ChannelData) (config : Config)
    (g : RawItem → String) :
    collectPosts data config g =
      (data.item.filter (fun item =>
          (jsSplit config.postTypes ",").contains (fstVal item.post_type)
            && (fstVal item.status != "trash" && fstVal item.status != "draft"))).map
        (buildPost g) := by
  simp only [collectPosts, getItemsOfTypes, List.filter_filter]
  congr 1
  apply List.filter_congr
  intro a _
  cases h1 : (config.postTypes.splitOn ",").contains (fstVal a.post_type) <;>
    cases h2 : fstVal a.status != "trash" <;>
      cases h3 : fstVal a.status != "draft" <;> simp [h1, h2, h3]

/-- C2 (code bug): the claim fails on the code — `tagOnlyItem` carries a
category entry with domain `post_tag` and text `lean`, yet `getTags` returns
`[]`, because its guard tests the `tags` key (which WXR items never carry)
instead of the `category` key its body reads; the projection the claim
prescribes yields `["lean"]`. -/
theorem C2_getTags_misses_post_tag_entries :
    getTags tagOnlyItem = [] ∧
      ((tagOnlyItem.category.getD []).filter (fun c => c.domain == "post_tag")).map
        (fun c => c.text) = ["lean"] :=
  ⟨rfl, rfl⟩

/-- The §8 scrape-scenario document and a scrape-only configuration. -/
def scrapeDoc : ChannelData := ⟨[scrapeItem "7"]⟩

def scrapeConfig : Config :=
  { postTypes := "post", saveAttachedImages := false, saveScrapedImages := true }

/-- C5 counterexample: with body `<img src="photo.png">` and link
`https://example.com/post/`, the scraped reference's url is
`https://example.com/post/photo.png` — relative resolution keeps the `/post/`
directory of the base — and not `https://example.com/photo.png` as claimed. -/
theorem C5_cex_scraped_url_keeps_base_directory :
    (collectScrapedImages scrapeDoc scrapeConfig).map (fun im => im.url)
        = ["https://example.com/post/photo.png"] ∧
      (collectScrapedImages scrapeDoc scrapeConfig).map (fun im => im.url)
        ≠ ["https://example.com/photo.png"] := by
  refine ⟨rfl, ?_⟩
  intro hcontra
  rw [show (collectScrapedImages scrapeDoc scrapeConfig).map (fun im => im.url)
      = ["https://example.com/post/photo.png"] from rfl] at hcontra
  exact absurd hcontra (by decide)

/-- C5 (amended): for a post-type item whose body contains
`<img src="photo.png">` and whose link is `https://example.com/post/`,
scraped-image discovery emits exactly one ImageRef, with url
`https://example.com/post/photo.png` (the src resolved to an absolute URL
against the post's canonical link) and the numeric no-id sentinel `-1`. -/
theorem C5_amended_scraped_image (pid : String) :
    collectScrapedImages ⟨[scrapeItem pid]⟩ scrapeConfig =
      [{ id := ImgId.num (-1), postId := pid,
         url := "https://example.com/post/photo.png" }] := rfl

/-- C7: for every extracted item, `frontmatter.date` is the item's pubDate
parsed as an RFC-2822 timestamp interpreted in UTC and normalized to
`YYYY-MM-DD`; in particular `Wed, 01 Jan 2020 00:00:00 +0000` yields
`2020-01-01`. -/
theorem C7_date_rfc2822_utc_iso :
    (∀ (g : RawItem → String) (item : RawItem),
        (buildPost g item).frontmatter.date = fromRFC2822toISODate (fstVal item.pubDate)) ∧
      fromRFC2822toISODate "Wed, 01 Jan 2020 00:00:00 +0000" = some "2020-01-01" :=
  ⟨fun _ _ => rfl, rfl⟩

/-- C9: the post-load pipeline is deterministic — two runs on the same parsed
document tree, configuration and content collaborator produce identical
PostRecord sequences. -/
theorem C9_pipeline_deterministic (d₁ d₂ : ChannelData) (c₁ c₂ : Config)
    (g₁ g₂ : RawItem → String) (hd : d₁ = d₂) (hc : c₁ = c₂) (hg : g₁ = g₂) :
    parsePipeline d₁ c₁ g₁ = parsePipeline d₂ c₂ g₂ := by
  rw [hd, hc, hg]

/-- C9 witness: the determinism theorem applied at a concrete document,
configuration and collaborator. -/
theorem C9_pipeline_deterministic_witness :
    parsePipeline scrapeDoc scrapeConfig (fun _ => "") =
      parsePipeline scrapeDoc scrapeConfig (fun _ => "") :=
  C9_pipeline_deterministic scrapeDoc scrapeDoc scrapeConfig scrapeConfig
    (fun _ => "") (fun _ => "") rfl rfl rfl

/-- A merge step whose image matches no post id leaves the posts unchanged. -/
theorem mergeStep_of_no_match (posts : List PostRecord) (im : ImageRef)
    (h : ∀ x ∈ posts.map (fun p => p.meta.id), x ≠ im.postId) :
    mergeStep posts im = posts := by
  unfold mergeStep
  rw [lastIdxOf?_eq_none h]

/-- Folding a cover-image update whose condition is false on every element
leaves the accumulator unchanged. -/
theorem foldl_cover_of_never (cid : Option String) :
    ∀ (l : List ImageRef) (a : Option String),
      (∀ im ∈ l, idEqCover im.id cid = false) →
      l.foldl (fun acc im =>
          if idEqCover im.id cid then some (getFilenameFromUrl im.url) else acc) a = a
  | [], _, _ => rfl
  | im :: ims, a, h => by
    rw [List.foldl_cons, if_neg (by rw [h im (List.mem_cons_self im ims)]; exact Bool.false_ne_true)]
    exact foldl_cover_of_never cid ims a (fun x hx => h x (List.mem_cons_of_mem im hx))

/-- C3: after the image merge, every post record (with the fresh, empty
`meta.imageUrls` collectPosts creates) holds no duplicate URL, in the order of
first occurrence of each URL across the merged ImageRef sequence restricted to
the references that resolve to that post. -/
theorem C3_merge_imageUrls_nodup_first_occurrence (images : List ImageRef)
    (posts : List PostRecord)
    (hinit : ∀ p ∈ posts, p.meta.imageUrls = ([] : List String))
    (i : Nat) (p' : PostRecord)
    (hp' : (mergeImagesIntoPosts images posts)[i]? = some p') :
    p'.meta.imageUrls =
      firstOccDedup ((images.filter (fun im =>
          lastIdxOf? (posts.map fun q => q.meta.id) im.postId == some i)).map
        (fun im => im.url)) ∧
    p'.meta.imageUrls.Nodup := by
  rw [merge_getElem? images posts i] at hp'
  cases hp : posts[i]? with
  | none => rw [hp] at hp'; exact absurd hp' (by simp)
  | some p =>
    rw [hp] at hp'
    simp only [Option.map_some', Option.some.injEq] at hp'
    subst hp'
    have hpmem : p ∈ posts := List.getElem?_mem hp
    have hurls :
        ((images.filter (fun im =>
            lastIdxOf? (posts.map fun q => q.meta.id) im.postId == some i)).foldl
          (fun q im => applyImage im q) p).meta.imageUrls =
          firstOccDedup ((images.filter (fun im =>
              lastIdxOf? (posts.map fun q => q.meta.id) im.postId == some i)).map
            (fun im => im.url)) := by
      rw [foldl_applyImage_imageUrls, foldl_insUnique_eq, hinit p hpmem]
      simp
    exact ⟨hurls, hurls ▸ firstOccDedup_nodup _⟩

/-- The record the sample merge produces for post 10. -/
def sampleMerged : PostRecord :=
  ((mergeImagesIntoPosts sampleImages [samplePost])[0]?).getD default

/-- C3 witness: the dedup theorem applied to the sample merge (three references
for post 10, the first and third sharing a url). -/
theorem C3_merge_imageUrls_nodup_first_occurrence_witness :
    (∀ p ∈ [samplePost], p.meta.imageUrls = ([] : List String)) ∧
      (mergeImagesIntoPosts sampleImages [samplePost])[0]? = some sampleMerged ∧
      (sampleMerged.meta.imageUrls =
          firstOccDedup ((sampleImages.filter (fun im =>
              lastIdxOf? ([samplePost].map fun q => q.meta.id) im.postId == some 0)).map
            (fun im => im.url)) ∧
        sampleMerged.meta.imageUrls.Nodup) :=
  ⟨by decide, by decide,
    C3_merge_imageUrls_nodup_first_occurrence sampleImages [samplePost] (by decide)
      0 sampleMerged (by decide)⟩

/-- C4: whenever an ImageRef's id strict-equals the owning post's
`meta.coverImageId`, the merge sets that post's `frontmatter.coverImage` to
the filename derived from the reference's URL, and when several references for
the post match, the last one in the input sequence determines the final value
(a post with no matching reference keeps its previous value). -/
theorem C4_coverImage_last_match_wins (images : List ImageRef)
    (posts : List PostRecord) (i : Nat) (p p' : PostRecord)
    (hp : posts[i]? = some p)
    (hp' : (mergeImagesIntoPosts images posts)[i]? = some p') :
    p'.frontmatter.coverImage =
      match (images.filter (fun im =>
          (lastIdxOf? (posts.map fun q => q.meta.id) im.postId == some i)
            && idEqCover im.id p.meta.coverImageId)).getLast? with
      | some im => some (getFilenameFromUrl im.url)
      | none => p.frontmatter.coverImage := by
  rw [merge_getElem? images posts i, hp] at hp'
  simp only [Option.map_some', Option.some.injEq] at hp'
  subst hp'
  have hfil : images.filter (fun a =>
      idEqCover a.id p.meta.coverImageId
        && (lastIdxOf? (posts.map fun q => q.meta.id) a.postId == some i))
      = images.filter (fun im =>
        (lastIdxOf? (posts.map fun q => q.meta.id) im.postId == some i)
          && idEqCover im.id p.meta.coverImageId) := by
    apply List.filter_congr
    intro a _
    rw [Bool.and_comm]
  rw [foldl_applyImage_coverImage,
    foldl_ifMatch_getLast? (fun im => getFilenameFromUrl im.url)
      (fun im => idEqCover im.id p.meta.coverImageId), List.filter_filter, hfil]

/-- The §8 cover-image scenario document, with attached images enabled. -/
def c4Doc : ChannelData := ⟨[coverPost, coverAttachment]⟩

def c4Config : Config :=
  { postTypes := "post", saveAttachedImages := true, saveScrapedImages := false }

def c4Posts : List PostRecord := collectPosts c4Doc c4Config (fun _ => "content")

def c4Images : List ImageRef := collectAttachedImages c4Doc

def c4Post : PostRecord := (c4Posts[0]?).getD default

def c4Merged : PostRecord :=
  ((mergeImagesIntoPosts c4Images c4Posts)[0]?).getD default

/-- C4 witness: the `_thumbnail_id = 42` postmeta combined with the attachment
whose `post_id` is 42 and whose url ends in `.jpg` yields
`frontmatter.coverImage = "photo.jpg"`, the url's final path segment. -/
theorem C4_coverImage_last_match_wins_witness :
    c4Posts[0]? = some c4Post ∧
      (mergeImagesIntoPosts c4Images c4Posts)[0]? = some c4Merged ∧
      c4Merged.frontmatter.coverImage = some "photo.jpg" :=
  ⟨by decide, by decide,
    (C4_coverImage_last_match_wins c4Images c4Posts 0 c4Post c4Merged
        (by decide) (by decide)).trans (by decide)⟩

/-- C6: an ImageRef whose postId matches no post's `meta.id` is dropped
silently — merging any sequence containing it gives the same posts as merging
the sequence without it, and no error state exists. -/
theorem C6_orphaned_image_dropped (pre suf : List ImageRef) (im : ImageRef)
    (posts : List PostRecord)
    (h : ∀ p ∈ posts, p.meta.id ≠ im.postId) :
    mergeImagesIntoPosts (pre ++ im :: suf) posts =
      mergeImagesIntoPosts (pre ++ suf) posts := by
  unfold mergeImagesIntoPosts
  rw [List.foldl_append, List.foldl_append, List.foldl_cons]
  have hids : ∀ x ∈ (List.foldl mergeStep posts pre).map (fun p => p.meta.id),
      x ≠ im.postId := by
    intro x hx
    rw [show (List.foldl mergeStep posts pre).map (fun p => p.meta.id)
        = posts.map (fun p => p.meta.id) from merge_map_id pre posts] at hx
    obtain ⟨p, hpmem, rfl⟩ := List.mem_map.mp hx
    exact h p hpmem
  rw [mergeStep_of_no_match (List.foldl mergeStep posts pre) im hids]

/-- An image reference whose postId matches no sample post. -/
def orphanImage : ImageRef :=
  { id := ImgId.str "99", postId := "missing", url := "https://e.com/x.png" }

/-- C6 witness: the orphan-drop theorem applied to a concrete orphan. -/
theorem C6_orphaned_image_dropped_witness :
    (∀ p ∈ [samplePost], p.meta.id ≠ orphanImage.postId) ∧
      mergeImagesIntoPosts ([] ++ orphanImage :: []) [samplePost] =
        mergeImagesIntoPosts ([] ++ []) [samplePost] :=
  ⟨by decide, C6_orphaned_image_dropped [] [] orphanImage [samplePost] (by decide)⟩

/-- C8: the merge mutates only `frontmatter.coverImage` and `meta.imageUrls`;
every other field of every post record, and the number of records, is left
unchanged for every image sequence. -/
theorem C8_merge_frame (images : List ImageRef) (posts : List PostRecord)
    (i : Nat) (p p' : PostRecord) (hp : posts[i]? = some p)
    (hp' : (mergeImagesIntoPosts images posts)[i]? = some p') :
    p'.meta.id = p.meta.id ∧ p'.meta.slug = p.meta.slug ∧
      p'.meta.coverImageId = p.meta.coverImageId ∧ p'.meta.type = p.meta.type ∧
      p'.content = p.content ∧
      p'.frontmatter.title = p.frontmatter.title ∧
      p'.frontmatter.date = p.frontmatter.date ∧
      p'.frontmatter.slug = p.frontmatter.slug ∧
      p'.frontmatter.link = p.frontmatter.link ∧
      p'.frontmatter.creator = p.frontmatter.creator ∧
      p'.frontmatter.description = p.frontmatter.description ∧
      p'.frontmatter.commentStatus = p.frontmatter.commentStatus ∧
      p'.frontmatter.pingStatus = p.frontmatter.pingStatus ∧
      p'.frontmatter.isSticky = p.frontmatter.isSticky ∧
      p'.frontmatter.categories = p.frontmatter.categories ∧
      p'.frontmatter.tags = p.frontmatter.tags ∧
      (mergeImagesIntoPosts images posts).length = posts.length := by
  rw [merge_getElem? images posts i, hp] at hp'
  simp only [Option.map_some', Option.some.injEq] at hp'
  subst hp'
  refine ⟨?_, ?_, ?_, ?_, ?_, ?_, ?_, ?_, ?_, ?_, ?_, ?_, ?_, ?_, ?_, ?_, ?_⟩
  case _ => exact foldl_applyImage_pres (fun q => q.meta.id) (fun im q => rfl) _ p
  case _ => exact foldl_applyImage_pres (fun q => q.meta.slug) (fun im q => rfl) _ p
  case _ => exact foldl_applyImage_pres (fun q => q.meta.coverImageId) (fun im q => rfl) _ p
  case _ => exact foldl_applyImage_pres (fun q => q.meta.type) (fun im q => rfl) _ p
  case _ => exact foldl_applyImage_pres (fun q => q.content) (fun im q => rfl) _ p
  case _ =>
    exact foldl_applyImage_pres (fun q => q.frontmatter.title)
      (fun im q => by by_cases hc : idEqCover im.id q.meta.coverImageId <;>
        simp [applyImage, hc]) _ p
  case _ =>
    exact foldl_applyImage_pres (fun q => q.frontmatter.date)
      (fun im q => by by_cases hc : idEqCover im.id q.meta.coverImageId <;>
        simp [applyImage, hc]) _ p
  case _ =>
    exact foldl_applyImage_pres (fun q => q.frontmatter.slug)
      (fun im q => by by_cases hc : idEqCover im.id q.meta.coverImageId <;>
        simp [applyImage, hc]) _ p
  case _ =>
    exact foldl_applyImage_pres (fun q => q.frontmatter.link)
      (fun im q => by by_cases hc : idEqCover im.id q.meta.coverImageId <;>
        simp [applyImage, hc]) _ p
  case _ =>
    exact foldl_applyImage_pres (fun q => q.frontmatter.creator)
      (fun im q => by by_cases hc : idEqCover im.id q.meta.coverImageId <;>
        simp [applyImage, hc]) _ p
  case _ =>
    exact foldl_applyImage_pres (fun q => q.frontmatter.description)
      (fun im q => by by_cases hc : idEqCover im.id q.meta.coverImageId <;>
        simp [applyImage, hc]) _ p
  case _ =>
    exact foldl_applyImage_pres (fun q => q.frontmatter.commentStatus)
      (fun im q => by by_cases hc : idEqCover im.id q.meta.coverImageId <;>
        simp [applyImage, hc]) _ p
  case _ =>
    exact foldl_applyImage_pres (fun q => q.frontmatter.pingStatus)
      (fun im q => by by_cases hc : idEqCover im.id q.meta.coverImageId <;>
        simp [applyImage, hc]) _ p
  case _ =>
    exact foldl_applyImage_pres (fun q => q.frontmatter.isSticky)
      (fun im q => by by_cases hc : idEqCover im.id q.meta.coverImageId <;>
        simp [applyImage, hc]) _ p
  case _ =>
    exact foldl_applyImage_pres (fun q => q.frontmatter.categories)
      (fun im q => by by_cases hc : idEqCover im.id q.meta.coverImageId <;>
        simp [applyImage, hc]) _ p
  case _ =>
    exact foldl_applyImage_pres (fun q => q.frontmatter.tags)
      (fun im q => by by_cases hc : idEqCover im.id q.meta.coverImageId <;>
        simp [applyImage, hc]) _ p
  case _ =>
    have hlen := congrArg List.length (merge_map_id images posts)
    simpa using hlen

/-- C8 witness: the frame theorem applied to the sample merge. -/
theorem C8_merge_frame_witness :
    ([samplePost] : List PostRecord)[0]? = some samplePost ∧
      (mergeImagesIntoPosts sampleImages [samplePost])[0]? = some sampleMerged ∧
      (sampleMerged.meta.id = samplePost.meta.id ∧
        sampleMerged.meta.slug = samplePost.meta.slug ∧
        sampleMerged.meta.coverImageId = samplePost.meta.coverImageId ∧
        sampleMerged.meta.type = samplePost.meta.type ∧
        sampleMerged.content = samplePost.content ∧
        sampleMerged.frontmatter.title = samplePost.frontmatter.title ∧
        sampleMerged.frontmatter.date = samplePost.frontmatter.date ∧
        sampleMerged.frontmatter.slug = samplePost.frontmatter.slug ∧
        sampleMerged.frontmatter.link = samplePost.frontmatter.link ∧
        sampleMerged.frontmatter.creator = samplePost.frontmatter.creator ∧
        sampleMerged.frontmatter.description = samplePost.frontmatter.description ∧
        sampleMerged.frontmatter.commentStatus = samplePost.frontmatter.commentStatus ∧
        sampleMerged.frontmatter.pingStatus = samplePost.frontmatter.pingStatus ∧
        sampleMerged.frontmatter.isSticky = samplePost.frontmatter.isSticky ∧
        sampleMerged.frontmatter.categories = samplePost.frontmatter.categories ∧
        sampleMerged.frontmatter.tags = samplePost.frontmatter.tags ∧
        (mergeImagesIntoPosts sampleImages [samplePost]).length
          = ([samplePost] : List PostRecord).length) :=
  ⟨by decide, by decide,
    C8_merge_frame sampleImages [samplePost] 0 samplePost sampleMerged
      (by decide) (by decide)⟩

/-- C10: every scraped ImageRef carries the numeric sentinel `-1`, the strict
cover-image comparison of that sentinel against a post's `coverImageId` (a
string from postmeta, or undefined) is always false, and merging any sequence
of sentinel-id references changes no post's `frontmatter.coverImage`. -/
theorem C10_scraped_never_sets_cover (data : ChannelData) (config : Config)
    (images : List ImageRef) (posts : List PostRecord) (i : Nat)
    (him : ∀ im ∈ images, im.id = ImgId.num (-1)) :
    (∀ im ∈ collectScrapedImages data config, im.id = ImgId.num (-1)) ∧
      (∀ c : Option String, idEqCover (ImgId.num (-1)) c = false) ∧
      ((mergeImagesIntoPosts images posts)[i]?).map (fun p => p.frontmatter.coverImage)
        = (posts[i]?).map (fun p => p.frontmatter.coverImage) := by
  refine ⟨?_, ?_, ?_⟩
  · intro im hmem
    simp only [collectScrapedImages, List.mem_flatMap, List.mem_map] at hmem
    obtain ⟨post, hpost, m, hm, rfl⟩ := hmem
    rfl
  · intro c; cases c <;> rfl
  · rw [merge_getElem? images posts i]
    cases hp : posts[i]? with
    | none => rfl
    | some p =>
      simp only [Option.map_some']
      congr 1
      rw [foldl_applyImage_coverImage]
      exact foldl_cover_of_never p.meta.coverImageId _ _ (fun im hmem => by
        rw [him im (List.mem_of_mem_filter hmem)]
        cases p.meta.coverImageId <;> rfl)

/-- A scraped-only image sequence for the C10 witness. -/
def scrapedOnlyImages : List ImageRef :=
  [ { id := ImgId.num (-1), postId := "10", url := "https://e.com/s1.png" },
    { id := ImgId.num (-1), postId := "10", url := "https://e.com/s2.png" } ]

/-- C10 witness: the theorem applied to a concrete scraped-only sequence and
the sample post (whose coverImage stays `none`). -/
theorem C10_scraped_never_sets_cover_witness :
    (∀ im ∈ scrapedOnlyImages, im.id = ImgId.num (-1)) ∧
      ((∀ im ∈ collectScrapedImages scrapeDoc scrapeConfig, im.id = ImgId.num (-1)) ∧
        (∀ c : Option String, idEqCover (ImgId.num (-1)) c = false) ∧
        ((mergeImagesIntoPosts scrapedOnlyImages [samplePost])[0]?).map
            (fun p => p.frontmatter.coverImage)
          = (([samplePost] : List PostRecord)[0]?).map
            (fun p => p.frontmatter.coverImage)) :=
  ⟨by decide,
    C10_scraped_never_sets_cover scrapeDoc scrapeConfig scrapedOnlyImages
      [samplePost] 0 (by decide)⟩

end WpExport
